import Mathlib

/-!
Verification of the live-reload coordination engine of the `watchserver`
repository (Python).  The Python code is shallowly embedded: Python `str`
values are modelled as `List Char`, the handful of `str` methods the code
uses (`replace`, `split`, `rsplit`, `lstrip`/`rstrip`/`strip` with their
character-set semantics, `join`) are modelled by executable functions
below, and each Python function under test is translated into a Lean
definition over those primitives.  File-system observations (`isfile`)
are passed in as an explicit oracle.
-/

namespace WatchServer

/-- `startsL pat s` : `s` begins with the character sequence `pat`. -/
def startsL : List Char → List Char → Bool
  | [], _ => true
  | _ :: _, [] => false
  | p :: ps, c :: cs => p = c && startsL ps cs

theorem startsL_length_le :
    ∀ (pat s : List Char), startsL pat s = true → pat.length ≤ s.length := by
  intro pat
  induction pat with
  | nil => intro s _; simp
  | cons p ps ih =>
    intro s hs
    cases s with
    | nil => simp [startsL] at hs
    | cons c cs =>
      simp only [startsL, Bool.and_eq_true] at hs
      simpa [Nat.succ_le_succ_iff] using ih cs hs.2

/-- Worker for `pyReplace`, structurally recursive on a fuel argument so
that it evaluates inside the kernel.  Every step consumes at least one
character, so `s.length` fuel always suffices. -/
def pyReplaceAux (pat rep : List Char) : Nat → List Char → List Char
  | _, [] => []
  | 0, s => s
  | fuel + 1, c :: rest =>
    if pat ≠ [] ∧ startsL pat (c :: rest) = true then
      rep ++ pyReplaceAux pat rep fuel ((c :: rest).drop pat.length)
    else
      c :: pyReplaceAux pat rep fuel rest

/-- Python `s.replace(pat, rep)`: left-to-right, non-overlapping
replacement of every occurrence of `pat` (nonempty) by `rep`.
An empty `pat` leaves the string unchanged (the source never calls
`replace` with an empty pattern). -/
def pyReplace (pat rep s : List Char) : List Char :=
  pyReplaceAux pat rep s.length s

/-- Python `s.split(sep)` for a single-character separator:
`"".split("/") = [""]`, separators at the ends yield empty pieces. -/
def pySplit (sep : Char) : List Char → List (List Char)
  | [] => [[]]
  | c :: rest =>
    if c = sep then [] :: pySplit sep rest
    else
      match pySplit sep rest with
      | [] => [[c]]
      | s :: ss => (c :: s) :: ss

/-- Python `sep.join(xs)` (list of strings interleaved with `sep`). -/
def pyJoin (sep : List Char) : List (List Char) → List Char
  | [] => []
  | [x] => x
  | x :: xs => x ++ sep ++ pyJoin sep xs

/-- Python `s.lstrip(chars)`: drop leading characters that belong to the
character *set* `chars` (these are the Python semantics — `chars` is a set of
characters, not a literal substring).  `lstrip("")` removes nothing. -/
def pyLstrip (chars : List Char) (s : List Char) : List Char :=
  s.dropWhile (fun c => chars.contains c)

/-- Python `s.rstrip(chars)` (character-set semantics, see `pyLstrip`). -/
def pyRstrip (chars : List Char) (s : List Char) : List Char :=
  (s.reverse.dropWhile (fun c => chars.contains c)).reverse

/-- Python `s.strip(chars)` (character-set semantics on both ends). -/
def pyStrip (chars : List Char) (s : List Char) : List Char :=
  pyRstrip chars (pyLstrip chars s)

/-- Python `s.rsplit(sep, 1)` for a single-character separator: split at
the *last* occurrence of `sep`; a list of length 2 when `sep` occurs,
else the singleton `[s]`. -/
def pyRsplit1 (sep : Char) (s : List Char) : List (List Char) :=
  if s.contains sep then
    let i := (s.reverse.findIdx (fun c => c = sep))
    -- position (from the right) of the last separator
    let n := s.length - 1 - i
    [s.take n, s.drop (n + 1)]
  else [s]

/-- Shorthand turning a Lean string literal into the `List Char` model of
a Python string. -/
def cs (s : String) : List Char := s.data

/-! ### `ServerPath` (src/liveserver/util.py)

The Python class mutates `self.path` in place; every method below is the
corresponding pure function on the wrapped string. -/

/-- `ServerPath.__init__`: join the nonempty arguments with `/`, turn
`\` into `/`, collapse `//` once, and — only when the result is longer
than 2 characters — delete every occurrence of `./`. -/
def mkServerPath (paths : List (List Char)) : List Char :=
  let joined := pyJoin ['/'] (paths.filter (fun p => p ≠ []))
  let s := pyReplace ['/', '/'] ['/'] (pyReplace ['\\'] ['/'] joined)
  if 2 < s.length then pyReplace ['.', '/'] [] s else s

/-- `ServerPath.parent`: `rsplit("/", 1)`, then rebuild (re-appending a
`/` when the left part is nonempty). -/
def spParent (path : List Char) : List Char :=
  match pyRsplit1 '/' path with
  | [a, _] => if a ≠ [] then mkServerPath [a, ['/']] else mkServerPath [a]
  | _ => mkServerPath [[]]

/-- `ServerPath.parents`: `self.path.split("/")[:-1]`. -/
def spParents (path : List Char) : List (List Char) :=
  (pySplit '/' path).dropLast

/-- `ServerPath.normpath`: `self.path.strip("/").replace("//", "/")`. -/
def spNormpath (path : List Char) : List Char :=
  pyReplace ['/', '/'] ['/'] (pyStrip ['/'] path)

/-- `ServerPath.posix`: the wrapped string, or `.` when empty. -/
def spPosix (path : List Char) : List Char :=
  if path = [] then ['.'] else path

/-- `ServerPath.regex`: each `**` segment becomes `.*`, every `*` inside
any other segment becomes `[^/]*`, segments re-joined with `/`. -/
def spRegex (path : List Char) : List Char :=
  pyJoin ['/'] ((pySplit '/' path).map (fun part =>
    if part = ['*', '*'] then ['.', '*']
    else pyReplace ['*'] ['[', '^', '/', ']', '*'] part))

/-- `translate_path(root, src)` (src/liveserver/util.py).  Note that the
two `lstrip` calls use the Python character-set semantics: first the
characters of `"/"`, then the characters of `root`.  `isfile` is the
file-system oracle for `ServerPath.isfile`. -/
def translatePath (root src : List Char) (isfile : List Char → Bool) : List Char :=
  let path := pyLstrip root (pyLstrip ['/'] (mkServerPath [src]))
  if spParents path = [] then ['/']
  else if isfile path then spPosix (spNormpath (spParent path)) ++ ['/']
  else spPosix (spNormpath path) ++ ['/']

/-- A file oracle for an empty file system (no path is a file). -/
def noFiles : List Char → Bool := fun _ => false

/-- Modelled from the spec: "strip the configured serving root prefix"
read as removing the root as a *literal leading prefix* of the
slash-normalized raw path — the reading asserted by the spec, to be
compared against the character-set `lstrip` the source performs. -/
def specStripRootLiteral (root raw : List Char) : List Char :=
  let s := pyLstrip ['/'] (mkServerPath [raw])
  if startsL root s then s.drop root.length else s

/-! ### Regular-expression matching

The only regexes the engine builds are the outputs of
`ServerPath.regex` plus two fixed patterns in `load_file`, all drawn
from the fragment: literal characters, `.` (any character except a
newline), `.*`, `[^/]*` and `.+`.  We model this fragment with a token
list and a backtracking matcher.  `re.match` anchors at the start only
(`rmatchPre`); the queue check in `do_GET` wraps the pattern in
`^...$`, which on newline-free subjects is full-string matching
(`rmatch`). -/

inductive RTok where
  | lit (c : Char)
  | anyc
  | anyStar
  | nonSlashStar
  deriving DecidableEq

/-- Tokenize the regex strings produced by `ServerPath.regex`: the only
multi-character atoms that can occur are `[^/]*` (from `*`) and `.*`
(from a `**` segment); a lone `.` is the any-character atom; everything
else is a literal. -/
def tokenize : List Char → List RTok
  | '[' :: '^' :: '/' :: ']' :: '*' :: rest => .nonSlashStar :: tokenize rest
  | '.' :: '*' :: rest => .anyStar :: tokenize rest
  | '.' :: rest => .anyc :: tokenize rest
  | c :: rest => .lit c :: tokenize rest
  | [] => []

/-- All suffixes of `s` reachable by deleting leading characters that
satisfy `p` (including `s` itself): the candidate continuation points
for a starred atom whose body accepts exactly the characters with `p`. -/
def starSuffixes (p : Char → Bool) : List Char → List (List Char)
  | [] => [[]]
  | c :: cs => (c :: cs) :: (if p c then starSuffixes p cs else [])

/-- Full (both-ends anchored) matching of a token list, the semantics of
`re.match("^" + pattern + "$", s)` on newline-free subjects. -/
def rmatch : List RTok → List Char → Bool
  | [], s => s.isEmpty
  | .lit c :: ts, s =>
    match s with
    | x :: xs => x = c && rmatch ts xs
    | [] => false
  | .anyc :: ts, s =>
    match s with
    | x :: xs => x ≠ '\n' && rmatch ts xs
    | [] => false
  | .anyStar :: ts, s => (starSuffixes (fun c => c ≠ '\n') s).any (fun s2 => rmatch ts s2)
  | .nonSlashStar :: ts, s => (starSuffixes (fun c => c ≠ '/') s).any (fun s2 => rmatch ts s2)

/-- Start-anchored matching, the semantics of `re.match(pattern, s)`:
the pattern may consume any prefix of the subject. -/
def rmatchPre : List RTok → List Char → Bool
  | [], _ => true
  | .lit c :: ts, s =>
    match s with
    | x :: xs => x = c && rmatchPre ts xs
    | [] => false
  | .anyc :: ts, s =>
    match s with
    | x :: xs => x ≠ '\n' && rmatchPre ts xs
    | [] => false
  | .anyStar :: ts, s => (starSuffixes (fun c => c ≠ '\n') s).any (fun s2 => rmatchPre ts s2)
  | .nonSlashStar :: ts, s => (starSuffixes (fun c => c ≠ '/') s).any (fun s2 => rmatchPre ts s2)

example : rmatch (tokenize (spRegex (cs "**/pages/blog/*"))) (cs "assets/pages/blog/post1") = true := by decide
example : rmatch (tokenize (spRegex (cs "**/pages/blog/*"))) (cs "assets/pages/blog/sub/post1") = false := by decide
example : rmatch (tokenize (spRegex (cs "**"))) (cs "any/thing.html/") = true := by decide
example : rmatchPre (tokenize (spRegex (cs "a"))) (cs "ab") = true := by decide
example : rmatch (tokenize (spRegex (cs "a"))) (cs "ab") = false := by decide

/-! ### `ServerPath.relative_to` (src/liveserver/util.py) -/

/-- The error raised by `ServerPath.relative_to`: a plain `IndexError`
whose message interpolates `self.posix()` (there is no dedicated
path-escape error class anywhere in the repository). -/
inductive PathErr where
  | indexError (selfPosix : List Char)
  deriving DecidableEq

/-- The `for` loop of `relative_to`: walk the relative parts, one `..`
per step; raise once the parent position would go below zero; on the
first non-`..` part rebuild from the surviving parents plus the rest. -/
def relLoop (err : PathErr) (parents : List (List Char)) :
    Int → List (List Char) → Except PathErr (List Char)
  | pos, [] => .ok (mkServerPath (parents.take pos.toNat))
  | pos, part :: rest =>
    if part = ['.', '.'] then
      if pos - 1 < 0 then .error err
      else relLoop err parents (pos - 1) rest
    else .ok (mkServerPath (parents.take pos.toNat ++ (part :: rest)))

/-- `ServerPath.relative_to(rel_path)`: resolve `relPath` against the
parents of `self`, raising `IndexError` when `..` climbs above the
outermost scope of the current path. -/
def spRelativeTo (self relPath : List Char) : Except PathErr (List Char) :=
  let parents := spParents self
  let relParts := pySplit '/' (pyReplace ['/', '/'] ['/'] (pyReplace ['\\'] ['/'] relPath))
  relLoop (.indexError (spPosix self)) parents (parents.length : Int) relParts

example : spRelativeTo (cs "site") (cs "../../etc/passwd") =
    .error (.indexError (cs "site")) := by rfl
example : spRelativeTo (cs "a/b/c/") (cs "../../etc/passwd") =
    .ok (cs "a/etc/passwd") := by rfl

/-! ### The pull-variant reload queue (src/liveserver/live.py and
src/watchserver/server.py — the two `server.py` files are identical) -/

/-- The `update_file` closure in `LiveServer.__init__`: every path the
callback returned is wrapped in a `ServerPath` and put on the queue
(`Queue.put` appends at the tail; `Queue.get` pops the head: FIFO). -/
def updateFile (cbPaths : List (List Char)) (queue : List (List Char)) : List (List Char) :=
  queue ++ cbPaths.map (fun p => mkServerPath [p])

/-- `default(root, src)` (src/liveserver/util.py): the stock callback
result — the translated path, plus a global `**` target for `.css` and
`.js` sources. -/
def defaultCB (root src : List Char) (isfile : List Char → Bool) : List (List Char) :=
  if startsL (cs "ssc.") src.reverse || startsL (cs "sj.") src.reverse then
    [translatePath root src isfile, cs "**"]
  else
    [translatePath root src isfile]

/-- The drain loop in `ServiceHandler.do_GET` for `/livereload/<path>`:
pop every queued `ServerPath` and record whether
`re.match("^" + reload.regex() + "$", file_path)` succeeded for any of
them.  Every popped entry is gone — matched or not. -/
def drainLoop (filePath : List Char) : List (List Char) → Bool
  | [] => false
  | r :: rest =>
    let hit := rmatch (tokenize (spRegex r)) filePath
    let more := drainLoop filePath rest
    hit || more

/-- `do_GET` on `GET /livereload/<rawPath>`: translate the polled path,
drain the whole queue, and answer body `"1"` when any queued entry
matched, else `"0"`.  Returns the body together with the queue contents
left after the request. -/
def doGetLivereload (root : List Char) (isfile : List Char → Bool)
    (queue : List (List Char)) (rawPath : List Char) : List Char × List (List Char) :=
  let filePath := translatePath root rawPath isfile
  ((if drainLoop filePath queue then cs "1" else cs "0"), [])

example : doGetLivereload (cs "") noFiles (updateFile [cs "blog/"] []) (cs "blog/") =
    (cs "1", []) := by decide
example : doGetLivereload (cs "") noFiles (updateFile [cs "blog/"] []) (cs "about/") =
    (cs "0", []) := by decide
example : doGetLivereload (cs "") noFiles [] (cs "blog/") = (cs "0", []) := by decide

/-! ### `LiveWatchHandler` (src/liveserver/watch.py) -/

/-- The watchdog event kinds that can reach the handler hooks. -/
inductive FSEvent where
  | fileModified (src : List Char)
  | dirModified (src : List Char)
  | fileCreated (src : List Char)
  | dirCreated (src : List Char)
  | fileDeleted (src : List Char)
  | dirDeleted (src : List Char)
  deriving DecidableEq

def FSEvent.srcPath : FSEvent → List Char
  | .fileModified s | .dirModified s | .fileCreated s
  | .dirCreated s | .fileDeleted s | .dirDeleted s => s

/-- `isinstance(event, FileModifiedEvent)`: true exactly for
file-modified events; `FileCreatedEvent`, `FileDeletedEvent` and the
directory events are not subclasses of `FileModifiedEvent`. -/
def FSEvent.isFileModifiedInstance : FSEvent → Bool
  | .fileModified _ => true
  | _ => false

/-- Which of the three `LiveWatchHandler` callbacks an event hook
forwards to. -/
inductive WatchCB where
  | create
  | update
  | remove
  deriving DecidableEq

/-- Body of `LiveWatchHandler.on_modified` (without the `@debounce`
wrapper, which only affects timing): forward to `self._update` when the
event is a `FileModifiedEvent` and no ignore pattern start-matches the
source path (`re.match(ignore.regex(), src_path)`, start-anchored). -/
def onModified (ignore : List (List Char)) (e : FSEvent) : Option (WatchCB × List Char) :=
  let srcPath := spPosix (mkServerPath [e.srcPath])
  if e.isFileModifiedInstance &&
      ignore.all (fun ig => !(rmatchPre (tokenize (spRegex ig)) srcPath)) then
    some (.update, srcPath)
  else none

/-- Body of `LiveWatchHandler.on_created`: same guard as `on_modified`
(it tests `FileModifiedEvent`, not `FileCreatedEvent`), forwarding to
`self._create`. -/
def onCreated (ignore : List (List Char)) (e : FSEvent) : Option (WatchCB × List Char) :=
  let srcPath := spPosix (mkServerPath [e.srcPath])
  if e.isFileModifiedInstance &&
      ignore.all (fun ig => !(rmatchPre (tokenize (spRegex ig)) srcPath)) then
    some (.create, srcPath)
  else none

/-- Body of `LiveWatchHandler.on_deleted`: same guard again, and the
event is forwarded to `self._update` — not to `self._remove`. -/
def onDeleted (ignore : List (List Char)) (e : FSEvent) : Option (WatchCB × List Char) :=
  let srcPath := spPosix (mkServerPath [e.srcPath])
  if e.isFileModifiedInstance &&
      ignore.all (fun ig => !(rmatchPre (tokenize (spRegex ig)) srcPath)) then
    some (.update, srcPath)
  else none

example : onCreated [] (.fileCreated (cs "site/a.html")) = none := by decide
example : onDeleted [] (.fileModified (cs "site/a.html")) =
    some (.update, cs "site/a.html") := by decide
example : onModified [cs "a"] (.fileModified (cs "ab")) = none := by decide

/-! ### `debounce` (src/liveserver/watch.py)

`debounce(wait)` keeps one `threading.Timer` per key, where the key is
the string `func.__name__ + str(dict(bound_args.arguments))` computed by
the wrapper.  Each call cancels the pending timer for its key (if any)
and starts a fresh one that fires `wait` later with the new call's
arguments, popping the slot when it fires.  We model a time-ordered
trace of calls; the timer of a call is cancelled exactly when the next call
with the same key arrives strictly before the fire instant. -/

/-- One invocation of a debounce-decorated function: wall-clock time,
the string key the wrapper computes, and the bound arguments. -/
structure DCall (α : Type) where
  time : Nat
  key : List Char
  args : α
  deriving DecidableEq

/-- Whether the timer started by call `c` gets cancelled: the next call
with the same key (if any) arrives strictly before `c.time + delay`.
(A `Timer.cancel` issued at or after the fire instant is a no-op: the
fired timer has already popped its slot and run the callback.) -/
def cancelled (delay : Nat) (c : DCall α) (later : List (DCall α)) : Bool :=
  match later.find? (fun c2 => c2.key == c.key) with
  | some c2 => c2.time < c.time + delay
  | none => false

/-- The underlying-callback invocations a time-ordered call trace
produces: every non-cancelled call `c` fires once, at `c.time + delay`,
with its own (i.e. the latest) arguments. -/
def delivered (delay : Nat) : List (DCall α) → List (DCall α)
  | [] => []
  | c :: rest => (if cancelled delay c rest then [] else [c]) ++ delivered delay rest

example :
    delivered 10 [⟨0, cs "k", 1⟩, ⟨5, cs "k", 2⟩, ⟨9, cs "k", 3⟩] =
      [(⟨9, cs "k", 3⟩ : DCall Nat)] := by decide
example :
    delivered 10 [⟨0, cs "k", 1⟩, ⟨5, cs "j", 2⟩, ⟨20, cs "k", 3⟩] =
      [⟨0, cs "k", 1⟩, ⟨5, cs "j", 2⟩, (⟨20, cs "k", 3⟩ : DCall Nat)] := by decide

/-! ### The push variant (src/watchserver/__main__.py)

Listeners are bare entries of the `RefreshEventHandler.listeners` list
(one per accepted WebSocket, appended right after `ws.prepare`, before
any handshake); the server stores nothing else about them.  We name
listeners by `Nat` identifiers. -/

/-- Frames the push server can send. -/
inductive Frame where
  | connected
  | update (message : List Char)
  | moved (src dest : List Char)
  | dom (message : List Char)
  | error (message : List Char)
  | closed (message : List Char)
  deriving DecidableEq

/-- The `mtype == "open"` branch of `WatchServer.ws_refresh`: the server
replies `connected` on the channel of that listener and nothing else happens.
The `message` path the client sent is never read, and no per-listener
state exists to record it in (`listeners` is a plain list of sockets). -/
def wsHandleOpen (listeners : List Nat) (cid : Nat) (message : List Char) :
    List (Nat × Frame) × List Nat :=
  let _ := message
  ([(cid, .connected)], listeners)

/-- `RefreshEventHandler.update`: strip the root (with the Python
character-set `lstrip` again) and send an `update` frame to every
listener currently in the list — no per-listener filtering, no
handshake requirement. -/
def refreshUpdate (root : List Char) (listeners : List Nat) (file : List Char) :
    List (Nat × Frame) :=
  let f := pyLstrip ['/'] (pyLstrip (pyRstrip ['/'] root) (pyReplace ['\\'] ['/'] file))
  listeners.map (fun l => (l, .update f))

/-- Modelled from the spec: the §4.4 listener state machine, in which
handling `open {message: selfPath}` transitions the listener from Open
to Identified and records `selfPath` as its current resource identity.
This definition follows the wording of the spec; it exists only to be compared
with `wsHandleOpen`, which is what the source does. -/
def specHandleOpen (listeners : List (Nat × Option (List Char))) (cid : Nat)
    (selfPath : List Char) : List (Nat × Frame) × List (Nat × Option (List Char)) :=
  ([(cid, .connected)],
    listeners.map (fun l => if l.1 = cid then (l.1, some selfPath) else l))

example : wsHandleOpen [1, 2] 1 (cs "/a/") = ([(1, .connected)], [1, 2]) := by decide
example : refreshUpdate (cs ".") [1, 2] (cs "./pages/a.html") =
    [(1, .update (cs "pages/a.html")), (2, .update (cs "pages/a.html"))] := by decide

example : translatePath (cs "") (cs "/") noFiles = cs "/" := by decide
example : translatePath (cs "") (cs "") noFiles = cs "/" := by decide
example : translatePath (cs "site") (cs "site") noFiles = cs "/" := by decide
example : translatePath (cs "site/") (cs "site/test/page.html") noFiles = cs "/" := by decide
example : translatePath (cs "docs") (cs "docs/dir/x") noFiles = cs "dir/x/" := by decide
example : translatePath (cs "docs") (cs "dir/x/") noFiles = cs "ir/x/" := by decide
example : translatePath (cs "") (cs "../../etc/passwd") noFiles = cs "..etc/passwd/" := by decide
example : translatePath (cs "") (cs "blog/") noFiles = cs "blog/" := by decide
example : spRegex (cs "**/pages/blog/*") = cs ".*/pages/blog/[^/]*" := by decide
example : spRegex (cs "blog/") = cs "blog/" := by decide


/-! ### `WatchServer.load_file` (src/watchserver/__main__.py) -/

/-- The `INJECT` template string of src/watchserver/__main__.py, verbatim
(braces, quotes and backticks written with hex escapes).  Its only
replacement fields are the two occurrences of the field named `path`;
all other braces in it are doubled, i.e. literal, braces. -/
def INJECT : List Char := cs (
  "\n<meta name=\"_LIVE_RELOAD_PATH_\" content=\"\x7bpath\x7d\" />\n<script id=\"_LIVE_RELOAD_SCRIPT_\"" ++
  ">\n    const socket = new WebSocket(\x60ws://$\x7b\x7bwindow.location.host\x7d\x7d/ws/_live_refresh_" ++
  "\x60);\n    const reloadMeta = document.querySelector(\"meta[name=_LIVE_RELOAD_PATH_]\")?.cloneNode(" ++
  ");\n    const reloadScript = document.getElementById(\"_LIVE_RELOAD_SCRIPT_\")?.cloneNode(true);\n  " ++
  "  var reloadPath = reloadMeta?.content;\n    socket.addEventListener(\"open\", () => socket.send(JSO" ++
  "N.stringify(\x7b\x7b type: \"open\", message: reloadPath \x7d\x7d)));\n    socket.addEventListener(" ++
  "\"close\", () => socket.close());\n    socket.addEventListener(\"message\", (event) => \x7b\x7b\n   " ++
  "     const data = JSON.parse(event.data);\n        switch (data.type) \x7b\x7b\n            case \"c" ++
  "onnected\":\n                console.warn(\"[Live Reload] Connected for \x27\x7bpath\x7d\x27\");\n  " ++
  "              break;\n            case \"update\":\n                if (data.message === reloadPath)" ++
  " \x7b\x7b\n                    socket.send(\n                    JSON.stringify(\x7b\x7b\n          " ++
  "              type: \"fetch\",\n                        message: reloadPath,\n                    " ++
  "\x7d\x7d)\n                    );\n                \x7d\x7d\n                break;\n            cas" ++
  "e \"moved\":\n                const info = data.message;\n                console.warn(\x60[Live Rel" ++
  "oad] File renamed from $\x7b\x7binfo.src\x7d\x7d to $\x7b\x7binfo.dest\x7d\x7d\x60);\n              " ++
  "  if (info.src == reloadPath) \x7b\x7b\n                    // Now update the paths in meta tag and " ++
  "script\n                    reloadPath = info.dest;\n                    reloadMeta.content = info.d" ++
  "est;\n                    window.history.replaceState(\x7b\x7b\x7d\x7d, \x60Moved to $\x7b\x7binfo.d" ++
  "est\x7d\x7d\x60, \x60/$\x7b\x7binfo.dest\x7d\x7d\x60);\n                \x7d\x7d\n                br" ++
  "eak;\n            case \"dom\":\n                console.warn(\x60[Live Reload] Updating DOM\x60);\n" ++
  "                const html = document.getElementsByTagName(\"html\")[0];\n                html.inner" ++
  "HTML = data.message;\n                break;\n            case \"closed\":\n                console." ++
  "error(data.message);\n                socket.close();\n            default:\n        \x7d\x7d\n    " ++
  "\x7d\x7d);\n</script>\n")

/-- `Char.ofNat 123`, the left curly brace (kept out of literals). -/
def lbrace : Char := Char.ofNat 123

/-- `Char.ofNat 125`, the right curly brace. -/
def rbrace : Char := Char.ofNat 125

def lookupKw (kw : List (List Char × List Char)) (name : List Char) : Option (List Char) :=
  (kw.find? (fun p => p.1 == name)).map (fun p => p.2)

/-- Worker for `pyFormat`.  In field mode (`acc = some name`) we are
reading a replacement-field name; a missing keyword is the Python
`KeyError`, modelled as `Except.error` carrying the field name. -/
def pyFmtAux (kw : List (List Char × List Char)) :
    Option (List Char) → List Char → Except (List Char) (List Char)
  | none, [] => .ok []
  | some _, [] => .error (cs "unterminated replacement field")
  | none, [c] =>
    if c = lbrace || c = rbrace then .error (cs "single brace in format string")
    else .ok [c]
  | none, c :: c2 :: rest =>
    if c = lbrace then
      if c2 = lbrace then (pyFmtAux kw none rest).map (fun t => lbrace :: t)
      else pyFmtAux kw (some []) (c2 :: rest)
    else if c = rbrace then
      if c2 = rbrace then (pyFmtAux kw none rest).map (fun t => rbrace :: t)
      else .error (cs "single brace in format string")
    else (pyFmtAux kw none (c2 :: rest)).map (fun t => c :: t)
  | some acc, c :: rest =>
    if c = rbrace then
      match lookupKw kw acc with
      | some v => (pyFmtAux kw none rest).map (fun t => v ++ t)
      | none => .error acc
    else pyFmtAux kw (some (acc ++ [c])) rest

/-- Python `template.format(**kw)` for the subset `load_file` uses:
named replacement fields and doubled-brace escapes.  A field whose name
is not among the keywords raises `KeyError(name)`. -/
def pyFormat (kw : List (List Char × List Char)) (template : List Char) :
    Except (List Char) (List Char) :=
  pyFmtAux kw none template

/-- Tokens of the raw pattern `<\/.*head.*>` searched by `load_file`
(`\/` is an escaped literal slash). -/
def headCloseRe : List RTok :=
  [.lit '<', .lit '/', .anyStar, .lit 'h', .lit 'e', .lit 'a', .lit 'd', .anyStar, .lit '>']

/-- Tokens of the pattern `<html.+>` searched by `load_file`; `.+` is one
any-character followed by `.*`. -/
def htmlOpenRe : List RTok :=
  [.lit '<', .lit 'h', .lit 't', .lit 'm', .lit 'l', .anyc, .anyStar, .lit '>']

/-- `re.search(p, s).start()`: offset of the leftmost position where the
pattern matches (some prefix of the remaining subject). -/
def searchStart (ts : List RTok) (s : List Char) : Option Nat :=
  (List.range (s.length + 1)).find? (fun i => rmatchPre ts (s.drop i))

/-- `re.search(p, s).end()` for the single-quantifier patterns above:
the leftmost match start plus the greatest number of characters the
tokens can consume there (greedy quantifier). -/
def searchMatchEnd (ts : List RTok) (s : List Char) : Option Nat :=
  match searchStart ts s with
  | none => none
  | some i =>
    ((List.range ((s.drop i).length + 1)).reverse.find?
        (fun n => rmatch ts ((s.drop i).take n))).map (fun n => i + n)

/-- The `.html`/`.htm` branch of `WatchServer.load_file`: inject the
formatted `INJECT` snippet just before the `</...head...>` match, else
wrap it in a synthesized `<head>` right after the `<html...>` match,
else append it.  The append branch calls
`INJECT.format(filename=filename)` although the fields of the template are
named `path`, so it raises a `KeyError` for `path` (`Except.error`). -/
def loadFileHtml (data filename : List Char) : Except (List Char) (List Char) :=
  match searchStart headCloseRe data with
  | some start =>
    (pyFormat [(cs "path", filename)] INJECT).map
      (fun snippet => data.take start ++ snippet ++ data.drop start)
  | none =>
    match searchMatchEnd htmlOpenRe data with
    | some e =>
      (pyFormat [(cs "path", filename)] INJECT).map
        (fun snippet =>
          data.take e ++ cs "<head>" ++ snippet ++ cs "</head>" ++ data.drop e)
    | none =>
      (pyFormat [(cs "filename", filename)] INJECT).map
        (fun snippet => data ++ snippet)

example : loadFileHtml (cs "<p>hi</p>") (cs "x.html") = .error (cs "path") := by rfl

/-! ### Helper lemmas -/

/-- The empty continuation is reachable when every character of the
subject is allowed by the starred atom. -/
theorem nil_mem_starSuffixes (p : Char → Bool) (s : List Char)
    (h : ∀ c ∈ s, p c = true) : [] ∈ starSuffixes p s := by
  induction s with
  | nil => simp [starSuffixes]
  | cons c rest ih =>
    have hc := h c (by simp)
    simp only [starSuffixes, hc, if_true, List.mem_cons]
    exact Or.inr (ih (fun d hd => h d (by simp [hd])))

/-- A sole `.*` atom full-matches every newline-free subject. -/
theorem rmatch_anyStar_of_no_newline (s : List Char) (h : ∀ c ∈ s, c ≠ '\n') :
    rmatch [RTok.anyStar] s = true := by
  simp only [rmatch, List.any_eq_true]
  refine ⟨[], nil_mem_starSuffixes _ s (fun c hc => ?_), by simp [rmatch]⟩
  simpa using h c hc


/-- The pull-variant drain loop reports a hit exactly when some queued
entry full-matches the translated poll path. -/
theorem drainLoop_eq_any (fp : List Char) (queue : List (List Char)) :
    drainLoop fp queue = queue.any (fun r => rmatch (tokenize (spRegex r)) fp) := by
  induction queue with
  | nil => rfl
  | cons r rest ih => simp [drainLoop, List.any_cons, ih]

/-- Every string is its own first reachable star-continuation point. -/
theorem self_mem_starSuffixes (p : Char → Bool) (s : List Char) :
    s ∈ starSuffixes p s := by
  cases s with
  | nil => simp [starSuffixes]
  | cons c rest => simp [starSuffixes]

/-- Appending preserves reachable star-continuation points. -/
theorem starSuffixes_append (p : Char → Bool) (s t s2 : List Char)
    (h : s2 ∈ starSuffixes p s) : s2 ++ t ∈ starSuffixes p (s ++ t) := by
  induction s generalizing s2 with
  | nil =>
    simp [starSuffixes] at h
    subst h
    simpa using self_mem_starSuffixes p t
  | cons c rest ih =>
    simp only [starSuffixes, List.mem_cons] at h
    rcases h with h | h
    · subst h
      simpa using self_mem_starSuffixes p (c :: (rest ++ t))
    · by_cases hp : p c
      · simp only [hp, if_true] at h
        simp only [List.cons_append, starSuffixes, hp, if_true, List.mem_cons]
        exact Or.inr (ih s2 h)
      · simp [hp] at h

/-- A full (both-ends anchored) match of `s` start-matches every
extension `s ++ t`: the gap between `re.match("^" + p + "$", s)` and
the start-anchored `re.match(p, s ++ t)`. -/
theorem rmatchPre_append_of_rmatch (ts : List RTok) :
    ∀ (s t : List Char), rmatch ts s = true → rmatchPre ts (s ++ t) = true := by
  induction ts with
  | nil => intro s t _; simp [rmatchPre]
  | cons tok ts ih =>
    intro s t h
    cases tok with
    | lit c =>
      cases s with
      | nil => simp [rmatch] at h
      | cons x xs =>
        simp only [rmatch, Bool.and_eq_true] at h
        simpa only [List.cons_append, rmatchPre, Bool.and_eq_true]
          using ⟨h.1, ih xs t h.2⟩
    | anyc =>
      cases s with
      | nil => simp [rmatch] at h
      | cons x xs =>
        simp only [rmatch, Bool.and_eq_true] at h
        simpa only [List.cons_append, rmatchPre, Bool.and_eq_true]
          using ⟨h.1, ih xs t h.2⟩
    | anyStar =>
      simp only [rmatch, List.any_eq_true] at h
      obtain ⟨s2, hmem, hm⟩ := h
      simp only [rmatchPre, List.any_eq_true]
      exact ⟨s2 ++ t, starSuffixes_append _ s t s2 hmem, ih s2 t hm⟩
    | nonSlashStar =>
      simp only [rmatch, List.any_eq_true] at h
      obtain ⟨s2, hmem, hm⟩ := h
      simp only [rmatchPre, List.any_eq_true]
      exact ⟨s2 ++ t, starSuffixes_append _ s t s2 hmem, ih s2 t hm⟩

/-- Fire instants and arguments of the underlying invocations: a
surviving timer fires `delay` after the call that started it, with the
arguments of that call. -/
def deliveredFires (delay : Nat) (tr : List (DCall α)) : List (Nat × α) :=
  (delivered delay tr).map (fun c => (c.time + delay, c.args))

/-- `find?` for a predicate looks the same through a filter by the very
same predicate. -/
theorem find?_filter_same {α : Type} (p : α → Bool) (l : List α) :
    (l.filter p).find? p = l.find? p := by
  induction l with
  | nil => rfl
  | cons a as ih =>
    by_cases h : p a = true
    · simp [List.filter_cons, h, List.find?_cons, ih]
    · simp [List.filter_cons, h, List.find?_cons, ih]

/-- Whether a call is cancelled only depends on the later calls that
share its key. -/
theorem cancelled_filter (delay : Nat) (c : DCall α) (rest : List (DCall α))
    (k : List Char) (hc : c.key = k) :
    cancelled delay c (rest.filter (fun d => d.key == k)) = cancelled delay c rest := by
  unfold cancelled
  have hp : (fun d : DCall α => d.key == c.key) = (fun d : DCall α => d.key == k) := by
    funext d; rw [hc]
  rw [hp, find?_filter_same]

/-- `delivered` commutes with restricting the trace to a single key. -/
theorem delivered_filter_key (delay : Nat) (k : List Char) (tr : List (DCall α)) :
    delivered delay (tr.filter (fun c => c.key == k)) =
      (delivered delay tr).filter (fun c => c.key == k) := by
  induction tr with
  | nil => rfl
  | cons c rest ih =>
    by_cases hk : c.key = k
    · have hb : (c.key == k) = true := by simp [hk]
      simp only [List.filter_cons, hb, if_true, delivered,
        cancelled_filter delay c rest k hk, ih]
      by_cases hcan : cancelled delay c rest = true
      · simp [hcan]
      · simp [hcan, List.filter_cons, hb]
    · have hb : (c.key == k) = false := by simp [hk]
      simp only [List.filter_cons, hb, if_false, Bool.false_eq_true, delivered, ih]
      by_cases hcan : cancelled delay c rest = true
      · simp [hcan]
      · simp [hcan, List.filter_cons, hb]

/-- A nonempty burst of same-key calls, each arriving before the
previous timer fires, delivers exactly the last call. -/
theorem delivered_burst {α : Type} (delay : Nat) (k : List Char) :
    ∀ (tr : List (DCall α)) (h : tr ≠ []),
      (∀ c ∈ tr, c.key = k) →
      tr.Chain' (fun a b => b.time < a.time + delay) →
      delivered delay tr = [tr.getLast h] := by
  intro tr
  induction tr with
  | nil => intro h; exact absurd rfl h
  | cons c rest ih =>
    intro _ hkey hchain
    cases rest with
    | nil => simp [delivered, cancelled]
    | cons c2 rest2 =>
      have hck : c.key = k := hkey c (by simp)
      have hc2k : c2.key = k := hkey c2 (by simp)
      have hfind : (c2 :: rest2).find? (fun x => x.key == c.key) = some c2 := by
        simp [List.find?_cons, hck, hc2k]
      have htime : c2.time < c.time + delay := (List.chain'_cons.mp hchain).1
      have hcan : cancelled delay c (c2 :: rest2) = true := by
        unfold cancelled
        rw [hfind]
        simpa using htime
      have hrest := ih (by simp)
        (fun d hd => hkey d (by simp [hd]))
        (List.chain'_cons.mp hchain).2
      have hstep : delivered delay (c :: c2 :: rest2)
          = (if cancelled delay c (c2 :: rest2) = true then ([] : List (DCall α)) else [c])
            ++ delivered delay (c2 :: rest2) := rfl
      rw [hstep]
      simp only [hcan, if_true, List.nil_append, hrest]
      exact congrArg (fun x => [x]) (List.getLast_cons (by simp)).symm

/-! ## Claims -/

/-- **C1** (counterexample).  The claim says that a poll for an
unrelated path keeps unmatched queued entries pending.  In the source,
the drain loop of `do_GET` pops every entry and never re-enqueues:
after enqueueing the canonical path `blog/`, polling the unrelated
`about/` answers `"0"` and leaves the queue empty, so `blog/` is *not*
still pending, and the follow-up poll for `blog/` answers `"0"` even
though its reload signal was never delivered. -/
theorem C1_counterexample_unmatched_entry_discarded :
    doGetLivereload (cs "") noFiles (updateFile [cs "blog/"] []) (cs "about/")
        = (cs "0", []) ∧
    cs "blog/" ∉
      (doGetLivereload (cs "") noFiles (updateFile [cs "blog/"] []) (cs "about/")).2 ∧
    doGetLivereload (cs "") noFiles
        (doGetLivereload (cs "") noFiles (updateFile [cs "blog/"] []) (cs "about/")).2
        (cs "blog/") = (cs "0", []) := by
  refine ⟨by decide, by decide, by decide⟩

/-- **C1** (amended).  For the pull variant, `GET /livereload/<path>`
drains the whole pending queue and answers `"1"` exactly when some
queued pending path glob-matches the translated polled path (anchored
at both ends), else `"0"`; *every* drained entry is discarded, matched
or not, so the queue is empty afterwards.  The enqueue/poll round trip
for the canonical path `blog/` answers `"1"` once and `"0"` on the
immediately following poll. -/
theorem C1_poll_drains_whole_queue_discarding (root raw : List Char)
    (isfile : List Char → Bool) (queue : List (List Char)) :
    doGetLivereload root isfile queue raw =
      ((if queue.any (fun r => rmatch (tokenize (spRegex r)) (translatePath root raw isfile))
        then cs "1" else cs "0"), []) ∧
    doGetLivereload (cs "") noFiles (updateFile [cs "blog/"] []) (cs "blog/")
      = (cs "1", []) ∧
    doGetLivereload (cs "") noFiles [] (cs "blog/") = (cs "0", []) := by
  refine ⟨?_, by decide, by decide⟩
  simp only [doGetLivereload, drainLoop_eq_any]

/-- **C2** (confirmed).  For a debounce key `k`, any nonempty burst of
calls with that key in which each call arrives within `delay` of its
predecessor produces exactly one underlying invocation: the last call
of the burst, firing at its time plus `delay` (a quiet period of length
`delay` with no further events for the key) and carrying the arguments
of that last call.  Moreover traces restricted to any single key are
delivered independently of all calls under other keys. -/
theorem C2_debounce_coalescing {α : Type} (delay : Nat) (k : List Char)
    (tr : List (DCall α)) (h : tr ≠ [])
    (hkey : ∀ c ∈ tr, c.key = k)
    (hburst : tr.Chain' (fun a b => b.time < a.time + delay)) :
    delivered delay tr = [tr.getLast h] ∧
    deliveredFires delay tr = [((tr.getLast h).time + delay, (tr.getLast h).args)] ∧
    (∀ (k2 : List Char) (tr2 : List (DCall α)),
        delivered delay (tr2.filter (fun c => c.key == k2)) =
          (delivered delay tr2).filter (fun c => c.key == k2)) := by
  have h1 := delivered_burst delay k tr h hkey hburst
  exact ⟨h1, by simp [deliveredFires, h1],
    fun k2 tr2 => delivered_filter_key delay k2 tr2⟩

/-- Witness for `C2_debounce_coalescing`: a concrete three-call burst
under key `"k"` within `delay = 10` delivers only the third call, at
time `9 + 10` and with its arguments. -/
theorem C2_debounce_coalescing_witness :
    delivered 10 [⟨0, cs "k", (1 : Nat)⟩, ⟨5, cs "k", 2⟩, ⟨9, cs "k", 3⟩]
        = [⟨9, cs "k", 3⟩] ∧
    deliveredFires 10 [⟨0, cs "k", (1 : Nat)⟩, ⟨5, cs "k", 2⟩, ⟨9, cs "k", 3⟩]
        = [(19, 3)] := by
  have hchain : List.Chain' (fun a b : DCall Nat => b.time < a.time + 10)
      [⟨0, cs "k", 1⟩, ⟨5, cs "k", 2⟩, ⟨9, cs "k", 3⟩] :=
    List.chain'_cons.mpr ⟨by norm_num,
      List.chain'_cons.mpr ⟨by norm_num, List.chain'_singleton _⟩⟩
  have h := C2_debounce_coalescing (α := Nat) 10 (cs "k")
    [⟨0, cs "k", 1⟩, ⟨5, cs "k", 2⟩, ⟨9, cs "k", 3⟩] (by decide) (by decide) hchain
  exact ⟨h.1, h.2.1⟩

/-- **C3** (counterexample).  The claim says the server records the
path sent in an `open` message as the listener identity.  In the source
the `open` branch of `ws_refresh` ignores the message body entirely:
handling `open` with path `/a/` and with path `/b/` produces identical
replies *and* identical server state, so no identity can have been
recorded — while the spec-modelled handler (`specHandleOpen`, which
does record the identity) distinguishes the two. -/
theorem C3_counterexample_open_path_not_recorded :
    wsHandleOpen [1, 2] 1 (cs "/a/") = wsHandleOpen [1, 2] 1 (cs "/b/") ∧
    specHandleOpen [(1, none), (2, none)] 1 (cs "/a/") ≠
      specHandleOpen [(1, none), (2, none)] 1 (cs "/b/") := by
  exact ⟨rfl, by decide⟩

/-- **C3** (amended).  When a connected push client sends an `open`
message the server replies with a `connected` frame but records
nothing — there is no Open/Identified distinction and the sent path is
discarded; every `update` broadcast is delivered to every listener
currently in the `listeners` list (appended at connection time, before
any handshake), identified or not, with filtering left to the client. -/
theorem C3_open_replies_connected_and_broadcast_unfiltered
    (listeners : List Nat) (cid : Nat) (message : List Char)
    (root file : List Char) (l : Nat) (hl : l ∈ listeners) :
    wsHandleOpen listeners cid message = ([(cid, Frame.connected)], listeners) ∧
    (l, Frame.update (pyLstrip ['/']
        (pyLstrip (pyRstrip ['/'] root) (pyReplace ['\\'] ['/'] file))))
      ∈ refreshUpdate root listeners file := by
  refine ⟨rfl, ?_⟩
  simp only [refreshUpdate, List.mem_map]
  exact ⟨l, hl, rfl⟩

/-- Witness for `C3_open_replies_connected_and_broadcast_unfiltered`:
listener `2` never sent `open`, yet the `update` broadcast for
`pages/a.html` reaches it. -/
theorem C3_open_replies_connected_witness :
    wsHandleOpen [1, 2] 1 (cs "/a/") = ([(1, Frame.connected)], [1, 2]) ∧
    (2, Frame.update (pyLstrip ['/'] (pyLstrip (pyRstrip ['/'] (cs "."))
        (pyReplace ['\\'] ['/'] (cs "./pages/a.html")))))
      ∈ refreshUpdate (cs ".") [1, 2] (cs "./pages/a.html") :=
  C3_open_replies_connected_and_broadcast_unfiltered [1, 2] 1 (cs "/a/")
    (cs ".") (cs "./pages/a.html") 2 (by decide)

/-- **C4** (counterexample).  The claim says normalization of a
root-escaping path fails with a `PathEscapeError` and never returns a
value.  The repository has no such error class and `translate_path` is
total: normalizing `../../etc/passwd` against the empty root *returns*
the canonical-looking value `..etc/passwd/` (the constructor of
`ServerPath` deleted the two `./` occurrences it found in the raw
string). -/
theorem C4_counterexample_translate_path_returns_value :
    translatePath (cs "") (cs "../../etc/passwd") noFiles = cs "..etc/passwd/" := by
  decide

/-- **C4** (amended).  `translate_path` never rejects root-escaping
paths; the only escape check in the repository is
`ServerPath.relative_to`, which raises a plain `IndexError` (not a
dedicated path-escape error) when the `..` segments climb above the
outermost scope — for `../../etc/passwd` that happens exactly when the
base path has fewer than two parent segments. -/
theorem C4_relative_to_raises_index_error (p : List Char)
    (h : (spParents p).length < 2) :
    spRelativeTo p (cs "../../etc/passwd") = .error (.indexError (spPosix p)) := by
  have hrel :
      pySplit '/' (pyReplace ['/', '/'] ['/'] (pyReplace ['\\'] ['/'] (cs "../../etc/passwd")))
        = [['.', '.'], ['.', '.'], ['e', 't', 'c'], ['p', 'a', 's', 's', 'w', 'd']] := by
    decide
  simp only [spRelativeTo]
  rw [hrel]
  set n := (spParents p).length with hn
  interval_cases n
  · norm_num [relLoop]
  · norm_num [relLoop]

/-- Witness for `C4_relative_to_raises_index_error`: the single-segment
base path `site` has no parents, so resolving `../../etc/passwd`
against it raises the `IndexError`. -/
theorem C4_relative_to_raises_index_error_witness :
    (spParents (cs "site")).length < 2 ∧
    spRelativeTo (cs "site") (cs "../../etc/passwd")
      = .error (.indexError (spPosix (cs "site"))) :=
  ⟨by decide, C4_relative_to_raises_index_error (cs "site") (by decide)⟩

/-- **C5** (code bug).  `ServerPath.lstrip` documents substring removal
but calls the Python `str.lstrip`, which strips a character *set*: with
serving root `site/` the path `site/test/page.html` (a path under the
root whose next segment `test` is spelled from the characters of the
root) collapses to the site root `/`, while the spec-modelled literal
root-stripping (`specStripRootLiteral`) keeps `test/page.html`. -/
theorem C5_root_strip_is_charset_not_literal :
    translatePath (cs "site/") (cs "site/test/page.html") noFiles = cs "/" ∧
    specStripRootLiteral (cs "site/") (cs "site/test/page.html") = cs "test/page.html" := by
  exact ⟨by decide, by decide⟩

/-- **C6** (counterexample).  The claim says *every* use of a compiled
pattern anchors it at both string ends.  The ignore check in
`LiveWatchHandler.on_modified` calls `re.match(ignore.regex(), src)`
with no trailing `$`: the ignore pattern `a` suppresses a modification
of the file `ab` (the event is dropped, `on_modified` forwards
nothing), even though the both-ends-anchored match of `a` against `ab`
fails — under the claimed anchoring the event would be forwarded. -/
theorem C6_counterexample_ignore_match_not_end_anchored :
    onModified [cs "a"] (.fileModified (cs "ab")) = none ∧
    rmatchPre (tokenize (spRegex (cs "a"))) (cs "ab") = true ∧
    rmatch (tokenize (spRegex (cs "a"))) (cs "ab") = false := by
  exact ⟨by decide, by decide, by decide⟩

/-- **C6** (amended).  Glob compilation maps each `*` segment-part to
`[^/]*` and a `**` segment to `.*`, joining segments with a literal
`/`; the queue check in `do_GET` anchors the compiled pattern at both
ends, under which `**/pages/blog/*` matches `assets/pages/blog/post1`
but not `assets/pages/blog/sub/post1` and `**` matches every
newline-free path.  The ignore check in `LiveWatchHandler`, however,
anchors only at the start: any pattern that fully matches `s` also
start-matches every extension `s ++ t`. -/
theorem C6_glob_compilation_and_anchoring :
    spRegex (cs "**/pages/blog/*") = cs ".*/pages/blog/[^/]*" ∧
    rmatch (tokenize (spRegex (cs "**/pages/blog/*"))) (cs "assets/pages/blog/post1") = true ∧
    rmatch (tokenize (spRegex (cs "**/pages/blog/*"))) (cs "assets/pages/blog/sub/post1")
      = false ∧
    (∀ fp r rest, drainLoop fp (r :: rest)
      = (rmatch (tokenize (spRegex r)) fp || drainLoop fp rest)) ∧
    (∀ s : List Char, (∀ c ∈ s, c ≠ '\n') →
      rmatch (tokenize (spRegex (cs "**"))) s = true) ∧
    (∀ (ts : List RTok) (s t : List Char),
      rmatch ts s = true → rmatchPre ts (s ++ t) = true) := by
  refine ⟨by decide, by decide, by decide, fun fp r rest => rfl, fun s hs => ?_,
    fun ts s t h => rmatchPre_append_of_rmatch ts s t h⟩
  have : tokenize (spRegex (cs "**")) = [RTok.anyStar] := by decide
  rw [this]
  exact rmatch_anyStar_of_no_newline s hs

/-- Witness for `C6_glob_compilation_and_anchoring`: the `**` clause at
the concrete path `any/thing.html` and the start-anchoring clause at
the full match of pattern `a` on `a` extended by `b`. -/
theorem C6_glob_compilation_and_anchoring_witness :
    rmatch (tokenize (spRegex (cs "**"))) (cs "any/thing.html") = true ∧
    rmatchPre (tokenize (spRegex (cs "a"))) (cs "a" ++ cs "b") = true :=
  ⟨(C6_glob_compilation_and_anchoring.2.2.2.2.1) (cs "any/thing.html") (by decide),
   (C6_glob_compilation_and_anchoring.2.2.2.2.2) (tokenize (spRegex (cs "a")))
     (cs "a") (cs "b") (by decide)⟩

/-- **C8** (code bug).  Path normalization is not idempotent: with
serving root `docs`, the path `docs/dir/x` (under the root) normalizes
to `dir/x/`, but renormalizing that very output against the same root
strips its leading `d` (a character of the root, via the character-set
`lstrip`) and yields `ir/x/`. -/
theorem C8_normalization_not_idempotent :
    translatePath (cs "docs") (cs "docs/dir/x") noFiles = cs "dir/x/" ∧
    translatePath (cs "docs") (translatePath (cs "docs") (cs "docs/dir/x") noFiles) noFiles
      = cs "ir/x/" ∧
    cs "ir/x/" ≠ cs "dir/x/" := by
  exact ⟨by decide, by decide, by decide⟩

/-- **C9** (code bug).  The claim says the returned document always
contains the reload snippet even when the HTML has neither a `</head>`
tag nor an `<html>` tag.  In that branch `load_file` calls
`INJECT.format(filename=filename)`, but the replacement fields of
`INJECT` are named `path`, so Python raises a `KeyError` for `path` and
no document is produced at all. -/
theorem C9_append_branch_raises_key_error :
    loadFileHtml (cs "<p>hi</p>") (cs "x.html") = .error (cs "path") := by rfl

/-- **C10** (confirmed).  The created and deleted hooks of the
pull-variant watch handler guard on `isinstance(event,
FileModifiedEvent)`: a genuine `FileCreatedEvent` never invokes the
create callback, and whenever the deleted hook forwards anything at all
it forwards to the *update* callback, never to remove. -/
theorem C10_created_deleted_guard_filemodified :
    (∀ (ig : List (List Char)) (src : List Char),
      onCreated ig (.fileCreated src) = none) ∧
    (∀ (ig : List (List Char)) (e : FSEvent) (out : WatchCB × List Char),
      onDeleted ig e = some out → out.1 = WatchCB.update) := by
  constructor
  · intro ig src
    simp [onCreated, FSEvent.isFileModifiedInstance]
  · intro ig e out h
    simp only [onDeleted] at h
    split at h
    · cases h; rfl
    · cases h

/-- Witness for `C10_created_deleted_guard_filemodified`: the create
hook drops a concrete `FileCreatedEvent`, and the deleted hook forwards
a concrete guard-passing event to the update callback. -/
theorem C10_created_deleted_guard_filemodified_witness :
    onCreated [] (.fileCreated (cs "a.html")) = none ∧
    (WatchCB.update, cs "a.html").1 = WatchCB.update :=
  ⟨C10_created_deleted_guard_filemodified.1 [] (cs "a.html"),
   C10_created_deleted_guard_filemodified.2 [] (.fileModified (cs "a.html"))
     (WatchCB.update, cs "a.html") (by decide)⟩

end WatchServer
